import Mathlib

/-!
Shallow embedding of the `iothacking` MQTT telemetry simulator
(`topic.py`, `listener.py`, `simulator.py`) and verification of its
specification claims.

Modelling conventions:
* Python floats are idealised as rationals (`ℚ`); `round(x, 4)` and
  `round(x)` are modelled by round-half-to-even on `ℚ` (`pyRound`,
  `round4`), matching Python's banker's rounding on exact values.
* Randomness is passed explicitly: every `generate_value` call receives a
  `Draw` record holding the values that `random.random()` /
  `random.uniform(..)` would have produced in that call.
* Python dictionaries are association lists with insert-or-overwrite
  semantics preserving first-insertion order, exactly as CPython does.
* The `eval`-compiled math expression of `TopicDataMathExpression` is
  modelled as an opaque function `ℚ → ExprRes` giving, for each value of
  `x`, either a numeric result, a non-numeric result, or a raised error.
-/

namespace IotSim

/-- Model of a Python (JSON-like) value appearing in payloads: playlist
literals, generated numbers, booleans and flat key/value maps. -/
inductive PyVal where
  | int (n : ℤ)
  | float (q : ℚ)
  | bool (b : Bool)
  | str (s : String)
  | dict (entries : List (String × PyVal))
deriving Repr

/-- Python `d[k] = v`: overwrite in place if the key is present, else append
(CPython dicts preserve first-insertion order). -/
def dictInsert (d : List (String × PyVal)) (k : String) (v : PyVal) :
    List (String × PyVal) :=
  match d with
  | [] => [(k, v)]
  | (k0, v0) :: rest =>
      if k0 = k then (k0, v) :: rest else (k0, v0) :: dictInsert rest k v

/-- Python `d.update(e)`: fold every entry of `e` into `d`. -/
def dictUpdate (d e : List (String × PyVal)) : List (String × PyVal) :=
  e.foldl (fun acc kv => dictInsert acc kv.1 kv.2) d

/-- Python `d.get(k)` / `d[k]` lookup on the association-list model. -/
def dictLookup (d : List (String × PyVal)) (k : String) : Option PyVal :=
  match d with
  | [] => none
  | (k0, v0) :: rest => if k0 = k then some v0 else dictLookup rest k

/-- Python `round(q)` to an integer: round half to even (banker's
rounding), which is what CPython uses. -/
def pyRound (q : ℚ) : ℤ :=
  if q - ⌊q⌋ < 1/2 then ⌊q⌋
  else if 1/2 < q - ⌊q⌋ then ⌊q⌋ + 1
  else if Even ⌊q⌋ then ⌊q⌋ else ⌊q⌋ + 1

/-- Python `round(q, 4)`: round to 4 decimal places, half to even. -/
def round4 (q : ℚ) : ℚ := (pyRound (q * 10000) : ℚ) / 10000

/-- Random draws consumed by one `generate_value` call.  `r1` stands for the
reset draw (`random.random()`), `r2` for the magnitude draw
(`random.uniform(0, max_step)` resp. `random.uniform(min_delta, max_delta)`)
and `r3` for the direction draw (`random.random()`). -/
structure Draw where
  r1 : ℚ
  r2 : ℚ
  r3 : ℚ
deriving Repr, DecidableEq

/-- Draw used when stepping generators that consume no randomness. -/
def dummyDraw : Draw := ⟨0, 0, 0⟩

/-- Mutable state of `TopicDataNumber` (constructor-initialised fields). -/
structure NumberState where
  min_value : ℚ
  max_value : ℚ
  current_value : ℚ
  max_step : ℚ
  increase_probability : ℚ
  reset_probability : ℚ
  restart_on_boundaries : Bool
  initial_value : Option ℚ

/-- Mutable state of `TopicDataRawValue`. -/
structure RawState where
  values : List PyVal
  restart_on_end : Bool
  value_default : Option PyVal
  current_index : ℕ

/-- Outcome of evaluating the compiled math expression at one value of
`x`: a numeric result, a non-numeric result, or a raised exception. -/
inductive ExprRes where
  | num (q : ℚ)
  | nonNum
  | err

/-- Mutable state of `TopicDataMathExpression`.  `expr` is `none` when the
expression failed to compile (`self._compiled_expr = None`). -/
structure MathState where
  expr : Option (ℚ → ExprRes)
  interval_start : ℚ
  interval_end : ℚ
  min_delta : ℚ
  max_delta : ℚ
  x : ℚ

/-- The four generator variants dispatched on the config `TYPE` string in
`Topic._load_topic_data`. -/
inductive GenData where
  | number (ns : NumberState)
  | boolean (current : Bool)
  | raw (rs : RawState)
  | mathExpr (ms : MathState)

/-- One data generator: the `TopicDataBase` fields (`name`, `type`,
`retain_probability`, `is_active`) plus the variant-specific state. -/
structure Generator where
  name : String
  type : String
  retain_probability : ℚ
  is_active : Bool
  data : GenData

/-- Clamp as written in `TopicDataNumber`: `max(min, min(max, x))`. -/
def clamp (lo hi x : ℚ) : ℚ := max lo (min hi x)

/-- Current-value update of `TopicDataNumber.generate_value`: with the reset
draw below `reset_probability` (and an initial value configured) snap to the
clamped initial value; otherwise apply the signed step and on overshoot
either snap to the raw (unclamped) initial value — when
`restart_on_boundaries` is set and an initial value exists — or clamp to the
violated bound. -/
def numberNext (ns : NumberState) (d : Draw) : ℚ :=
  if ns.initial_value.isSome ∧ d.r1 < ns.reset_probability then
    clamp ns.min_value ns.max_value (ns.initial_value.getD 0)
  else if d.r3 < ns.increase_probability then
    if ns.max_value < ns.current_value + d.r2 then
      match ns.restart_on_boundaries, ns.initial_value with
      | true, some iv => iv
      | _, _ => ns.max_value
    else ns.current_value + d.r2
  else
    if ns.current_value - d.r2 < ns.min_value then
      match ns.restart_on_boundaries, ns.initial_value with
      | true, some iv => iv
      | _, _ => ns.min_value
    else ns.current_value - d.r2

/-- `TopicDataNumber.generate_value`.  `d.r1` is the reset draw, `d.r2` the
step drawn by `random.uniform(0, max_step)`, `d.r3` the increase draw.  The
returned value is the updated current value converted to the configured
output type (`int(round(..))` resp. `round(.., 4)`). -/
def numberGen (g : Generator) (ns : NumberState) (d : Draw) :
    Option PyVal × Generator :=
  let ns1 := { ns with current_value := numberNext ns d }
  let out :=
    if g.type = "int" then PyVal.int (pyRound ns1.current_value)
    else PyVal.float (round4 ns1.current_value)
  (some out, { g with data := .number ns1 })

/-- Merge step of `TopicDataRawValue.generate_value`: when both the element
and the default are dicts, the element's keys win over the default's. -/
def mergeDefault (dflt : Option PyVal) (v : PyVal) : PyVal :=
  match dflt with
  | some (PyVal.dict dd) =>
      match v with
      | PyVal.dict dv => PyVal.dict (dictUpdate dd dv)
      | _ => v
  | _ => v

/-- Emission path of `TopicDataRawValue.generate_value`: read the element at
the cursor, merge defaults, advance the cursor. -/
def rawEmit (g : Generator) (rs : RawState) : Option PyVal × Generator :=
  let raw := rs.values.getD rs.current_index (PyVal.int 0)
  let value := mergeDefault rs.value_default raw
  (some value, { g with data := .raw { rs with current_index := rs.current_index + 1 } })

/-- `TopicDataRawValue.generate_value`: return `None` when inactive or
empty; at the end of the list either wrap to index 0 (restart) or
deactivate; otherwise emit the element at the cursor. -/
def rawGen (g : Generator) (rs : RawState) : Option PyVal × Generator :=
  if !g.is_active || rs.values.isEmpty then (none, g)
  else if rs.values.length ≤ rs.current_index then
    if rs.restart_on_end then rawEmit g { rs with current_index := 0 }
    else (none, { g with is_active := false })
  else rawEmit g rs

/-- The `x` advance-and-wrap of `TopicDataMathExpression.generate_value`:
add the drawn delta, and on overshoot past the interval end subtract the
interval width once. -/
def wrapX (ms : MathState) (delta : ℚ) : ℚ :=
  let x1 := ms.x + delta
  if ms.interval_end < x1 then ms.interval_start + (x1 - ms.interval_end)
  else x1

/-- `TopicDataMathExpression.generate_value`.  `d.r2` is the delta drawn by
`random.uniform(min_delta, max_delta)`.  `x` is advanced and wrapped before
evaluation; an evaluation error deactivates the generator, a non-numeric
result only returns `None`. -/
def mathGen (g : Generator) (ms : MathState) (d : Draw) :
    Option PyVal × Generator :=
  match g.is_active, ms.expr with
  | true, some f =>
      let x2 := wrapX ms d.r2
      match f x2 with
      | ExprRes.num q =>
          (some (PyVal.float (round4 q)), { g with data := .mathExpr { ms with x := x2 } })
      | ExprRes.nonNum =>
          (none, { g with data := .mathExpr { ms with x := x2 } })
      | ExprRes.err =>
          (none, { g with is_active := false, data := .mathExpr { ms with x := x2 } })
  | _, _ => (none, g)

/-- Dispatch of `generate_value` over the four generator variants
(`TopicDataBool.generate_value` toggles and returns the stored state). -/
def generateValue (g : Generator) (d : Draw) : Option PyVal × Generator :=
  match g.data with
  | .number ns => numberGen g ns d
  | .boolean b => (some (PyVal.bool (!b)), { g with data := .boolean (!b) })
  | .raw rs => rawGen g rs
  | .mathExpr ms => mathGen g ms d

/-- Constructor `TopicDataNumber.__init__`: the current value starts at
`INITIAL_VALUE` (default `MIN_VALUE`) clamped into the bounds; the raw
`INITIAL_VALUE` is stored unclamped for later resets. -/
def mkTopicDataNumber (name type : String) (retain_prob : ℚ)
    (min_value max_value : ℚ) (initial : Option ℚ) (max_step : ℚ)
    (increase_prob reset_prob : ℚ) (restart_on_boundaries : Bool) :
    Generator :=
  { name := name, type := type, retain_probability := retain_prob,
    is_active := true,
    data := .number
      { min_value := min_value, max_value := max_value,
        current_value := clamp min_value max_value (initial.getD min_value),
        max_step := max_step, increase_probability := increase_prob,
        reset_probability := reset_prob,
        restart_on_boundaries := restart_on_boundaries,
        initial_value := initial } }

/-- Constructor `TopicDataRawValue.__init__`: an empty (or missing) `VALUES`
list deactivates the generator immediately. -/
def mkTopicDataRawValue (name : String) (retain_prob : ℚ)
    (values : List PyVal) (restart_on_end : Bool)
    (value_default : Option PyVal) : Generator :=
  { name := name, type := "raw_values", retain_probability := retain_prob,
    is_active := !values.isEmpty,
    data := .raw
      { values := values, restart_on_end := restart_on_end,
        value_default := value_default, current_index := 0 } }

/-- One `generate_value` call with the dummy draw (used for generators that
consume no randomness, such as `TopicDataRawValue`). -/
def genStep (g : Generator) : Option PyVal × Generator :=
  generateValue g dummyDraw

/-- State of a generator after `n` draw-free `generate_value` calls. -/
def genIter (g : Generator) : ℕ → Generator
  | 0 => g
  | n + 1 => (genStep (genIter g n)).2

/-- Value returned by the `(n+1)`-st draw-free `generate_value` call. -/
def genOut (g : Generator) (n : ℕ) : Option PyVal :=
  (genStep (genIter g n)).1

/-- Values and final state of a sequence of `generate_value` calls under an
explicit list of random draws. -/
def genRun : Generator → List Draw → List (Option PyVal) × Generator
  | g, [] => ([], g)
  | g, d :: ds =>
      let (v, g1) := generateValue g d
      let (vs, gf) := genRun g1 ds
      (v :: vs, gf)

/-- Accumulator of the generator loop inside `Topic._generate_payload`:
the payload built so far, the count of generators seen active, and the
updated generator list. -/
structure PayloadAcc where
  payload : List (String × PyVal)
  activeCount : ℕ
  gens : List Generator

/-- One iteration of the `for data_gen in self.topic_data` loop in
`Topic._generate_payload`: skip inactive generators; otherwise count the
generator as active, step it, and store a non-`None` value under its name. -/
def payloadStep (acc : PayloadAcc) (gd : Generator × Draw) : PayloadAcc :=
  if gd.1.is_active then
    let (v, g1) := generateValue gd.1 gd.2
    match v with
    | some value =>
        ⟨dictInsert acc.payload gd.1.name value, acc.activeCount + 1,
          acc.gens ++ [g1]⟩
    | none => ⟨acc.payload, acc.activeCount + 1, acc.gens ++ [g1]⟩
  else ⟨acc.payload, acc.activeCount, acc.gens ++ [gd.1]⟩

/-- `Topic._generate_payload`: start from the static payload root, fold all
generators through `payloadStep`, and signal `None` (thread stop) exactly
when no generator was active at loop entry and the root is empty. -/
def generatePayload (gens : List (Generator × Draw))
    (root : List (String × PyVal)) :
    Option (List (String × PyVal)) × List Generator :=
  let res := gens.foldl payloadStep ⟨root, 0, []⟩
  if res.activeCount == 0 && root.isEmpty then (none, res.gens)
  else (some res.payload, res.gens)

/-- Publishing cycles of `Topic.run` (connection handling and the stop
event abstracted away: the run is observed while connected and unsignalled):
each cycle builds a payload via `Topic._generate_payload`, exits the loop on
`None`, and otherwise publishes the payload and continues.  The `n`-th
element of the draw list supplies the randomness of the `n`-th cycle. -/
def runLoop : List Generator → List (String × PyVal) → List (List Draw) →
    List (List (String × PyVal))
  | _, _, [] => []
  | gens, root, ds :: rest =>
      match generatePayload (gens.zip ds) root with
      | (none, _) => []
      | (some p, gens1) => p :: runLoop gens1 root rest

/-- `TopicDataBase.should_retain`: the opportunistic retain draw, `r` being
the value produced by `random.random()`. -/
def shouldRetain (retain_probability r : ℚ) : Bool :=
  decide (r < retain_probability)

/-- Retain flag computed per message in `Topic.run`: the device-level
default, or — only when that is false — whether some generator that is
active (after payload generation) succeeds its retain draw.  The Python
loop with its early `break` is equivalent to this disjunction. -/
def effectiveRetain (retainDefault : Bool) (gens : List (Generator × ℚ)) :
    Bool :=
  retainDefault ||
    gens.any (fun gr => gr.1.is_active && shouldRetain gr.1.retain_probability gr.2)

/-- State of `MQTTCommandListener` read or written by `_on_message`. -/
structure ListenerState where
  command_target_topics : List String
  trigger_command : String
  flag_response : String
  flag_response_topic : String

/-- An outbound MQTT publish request. -/
structure MqttPublish where
  topic : String
  payload : String
  qos : ℕ
  retain : Bool
deriving DecidableEq, Repr

/-- `MQTTCommandListener._on_message`: the inbound payload is given as the
result of UTF-8 decoding (`none` models a `UnicodeDecodeError`, which is
logged and dropped).  A publish of the flag response is issued exactly when
the topic is subscribed and the decoded payload equals the trigger; the
listener state is returned unchanged (the handler assigns no field). -/
def onMessage (st : ListenerState) (topic : String)
    (payload : Option String) : List MqttPublish × ListenerState :=
  match payload with
  | none => ([], st)
  | some p =>
      if topic ∈ st.command_target_topics ∧ p = st.trigger_command then
        ([⟨st.flag_response_topic, st.flag_response, 1, false⟩], st)
      else ([], st)

/-- Result of expanding one `multiple`-type topic specification in
`Simulator._load_config`: the concrete topic URLs plus whether the
invalid-range warning was logged. -/
structure RangeExpansion where
  topics : List String
  warned : Bool
deriving DecidableEq, Repr

/-- Expansion of a `multiple` topic spec: `prefix/N` for `N` in
`range(start, end+1)`; an empty range (`end < start`) yields no topics and
a logged warning (the config entry is skipped, no error is raised). -/
def expandMultiple (pfx : String) (rangeStart rangeEnd : ℤ) :
    RangeExpansion :=
  if rangeEnd < rangeStart then ⟨[], true⟩
  else
    ⟨(List.range (rangeEnd + 1 - rangeStart).toNat).map
        (fun (i : ℕ) => pfx ++ "/" ++ toString (rangeStart + (i : ℤ))), false⟩

/-- Liveness of a simulated worker thread: `finish = none` means the thread
hangs forever; `finish = some t` means it terminates `t` seconds after the
stop signal.  `is_alive()` at time `clock` is `clock < t`. -/
def threadAlive (finish : Option ℚ) (clock : ℚ) : Bool :=
  match finish with
  | none => true
  | some t => decide (clock < t)

/-- Semantics of `thread.join(timeout)` issued at absolute time `clock`:
the call returns at the thread's finish time if that falls within the
timeout, else after the full timeout. -/
def joinThread (clock : ℚ) (finish : Option ℚ) (timeout : ℚ) : ℚ :=
  match finish with
  | none => clock + timeout
  | some t =>
      if t ≤ clock then clock
      else if t ≤ clock + timeout then t else clock + timeout

/-- The `while threads_to_join:` loop of `Simulator.stop` with its shared
10-second budget: stop when the remaining budget is exhausted, otherwise
join the head thread with timeout `max(0.1, remaining)` and pop it whether
or not it terminated.  Returns the final clock and, per join performed, the
pair (remaining budget at that moment, timeout handed to `join`). -/
def stopJoinLoop : List (Option ℚ) → ℚ → ℚ × List (ℚ × ℚ)
  | [], clock => (clock, [])
  | f :: rest, clock =>
      let remaining := 10 - clock
      if remaining ≤ 0 then (clock, [])
      else
        let timeout := max (1/10) remaining
        let clock2 := joinThread clock f timeout
        let res := stopJoinLoop rest clock2
        (res.1, (remaining, timeout) :: res.2)

/-- Observable outcome of `Simulator.stop`. -/
structure StopReport where
  finalClock : ℚ
  joins : List (ℚ × ℚ)
  stillRunning : List (Option ℚ)

/-- `Simulator.stop` (threads described by their finish times, the stop
signal to all live threads happening at time 0): join the threads alive at
time 0 under the shared budget, then report the threads still alive at
the end as possibly still running. -/
def simulatorStop (threads : List (Option ℚ)) : StopReport :=
  let toJoin := threads.filter (fun f => threadAlive f 0)
  let res := stopJoinLoop toJoin 0
  ⟨res.1, res.2, threads.filter (fun f => threadAlive f res.1)⟩

/-- Current value stored by a numeric-walk generator (0 for other
variants, unused there). -/
def currentOf (g : Generator) : ℚ :=
  match g.data with
  | .number ns => ns.current_value
  | _ => 0

/-- The `x` stored by an expression-walk generator (0 for other variants,
unused there). -/
def mathXOf (g : Generator) : ℚ :=
  match g.data with
  | .mathExpr ms => ms.x
  | _ => 0

/-- Numeric content of a generated value, if any. -/
def valNum : PyVal → Option ℚ
  | PyVal.int n => some (n : ℚ)
  | PyVal.float q => some q
  | _ => none

/-- Device of claim C2: a single raw-values generator with three literals,
restart disabled, no static payload fragment. -/
def c2Device : List Generator :=
  [mkTopicDataRawValue "seq" 0 [PyVal.int 1, PyVal.int 2, PyVal.int 3] false none]

/-- Listener configuration used to witness claim C5. -/
def c5St : ListenerState :=
  ⟨["prison/cells/door_sensor/1"], "GET_FLAG", "FLAG_RESP",
    "prison/system/flag_channel"⟩

/-- Generator used to witness claim C8 (retain probability zero). -/
def c8Gen : Generator := mkTopicDataRawValue "g" 0 [PyVal.int 1] false none

/-- Numeric-walk generator of the claim C1 counterexample: bounds `[0,10]`,
`INITIAL_VALUE = 20` (outside the bounds), `restart_on_boundaries` on. -/
def c1Gen : Generator :=
  mkTopicDataNumber "temp" "float" 0 0 10 (some 20) 5 (1/2) 0 true

/-- Expression-walk generator of the claim C4 counterexample: its
expression always evaluates to a non-numeric result. -/
def c4Gen : Generator :=
  { name := "expr", type := "math_expression", retain_probability := 0,
    is_active := true,
    data := .mathExpr
      { expr := some (fun _ => ExprRes.nonNum), interval_start := 0,
        interval_end := 1, min_delta := 0, max_delta := 0, x := 0 } }

/-- Expression-walk state used to witness claim C4: the identity
expression on the interval `[0, 10]`. -/
def c4WitnessMs : MathState :=
  { expr := some (fun x => ExprRes.num x), interval_start := 0,
    interval_end := 10, min_delta := 0, max_delta := 2, x := 0 }

/-- Generator used to witness claim C9: an active playlist named `t`. -/
def c9Gen : Generator := mkTopicDataRawValue "t" 0 [PyVal.int 9] false none

/-- Raw-values generator with an explicit cursor and activity flag, the
state reached mid-run by `TopicDataRawValue` (proof infrastructure). -/
def rawAt (n : String) (rp : ℚ) (vs : List PyVal) (restart : Bool)
    (dflt : Option PyVal) (i : ℕ) (act : Bool) : Generator :=
  ⟨n, "raw_values", rp, act, .raw ⟨vs, restart, dflt, i⟩⟩

/-- Claim C10: a `TopicDataRawValue` built from an empty (or missing)
`VALUES` list is deactivated by the constructor, and every subsequent
`generate_value` call returns `None` and leaves the state untouched. -/
theorem c10_empty_playlist (n : String) (rp : ℚ) (restart : Bool)
    (dflt : Option PyVal) (m : ℕ) :
    (mkTopicDataRawValue n rp [] restart dflt).is_active = false ∧
    genIter (mkTopicDataRawValue n rp [] restart dflt) m
      = mkTopicDataRawValue n rp [] restart dflt ∧
    genOut (mkTopicDataRawValue n rp [] restart dflt) m = none := by
  have hstep : genStep (mkTopicDataRawValue n rp [] restart dflt)
      = (none, mkTopicDataRawValue n rp [] restart dflt) := rfl
  have hiter : ∀ k, genIter (mkTopicDataRawValue n rp [] restart dflt) k
      = mkTopicDataRawValue n rp [] restart dflt := by
    intro k
    induction k with
    | zero => rfl
    | succ k ih => rw [genIter, ih, hstep]
  exact ⟨rfl, hiter m, by rw [genOut, hiter m, hstep]⟩

/-- Claim C2 counterexample: the device publishes FOUR messages, not three
— the three literals and then one empty payload.  On the fourth cycle the
playlist is still counted as active at loop entry (it deactivates only
inside that call), so `_generate_payload` returns the empty dict instead of
`None`; only the fifth cycle returns `None` and stops the loop. -/
theorem c2_counterexample :
    runLoop c2Device []
        [[dummyDraw], [dummyDraw], [dummyDraw], [dummyDraw], [dummyDraw], [dummyDraw]]
      = [[("seq", PyVal.int 1)], [("seq", PyVal.int 2)], [("seq", PyVal.int 3)], []] ∧
    (runLoop c2Device []
        [[dummyDraw], [dummyDraw], [dummyDraw], [dummyDraw], [dummyDraw], [dummyDraw]]).length
      ≠ 3 := by
  exact ⟨rfl, by decide⟩

/-- Claim C2 (amended): a device whose only generator is a playlist of 3
literals with restart disabled and empty static fragment publishes exactly
four messages — the three literals in order, then one empty payload (the
cycle in which the playlist deactivates) — after which `_generate_payload`
returns `None` and the run loop exits no matter how many further cycles
were available. -/
theorem c2_amended (a b c : PyVal) (n : String) (rest : List (List Draw)) :
    runLoop [mkTopicDataRawValue n 0 [a, b, c] false none] []
        ([dummyDraw] :: [dummyDraw] :: [dummyDraw] :: [dummyDraw] :: [dummyDraw] :: rest)
      = [[(n, a)], [(n, b)], [(n, c)], []] := rfl

/-- Claim C5: the command listener's message handler publishes the flag
response (to the response topic, QoS 1, non-retained) exactly when the
inbound topic is subscribed and the decoded payload equals the trigger
literal exactly; it never publishes anything else, and it changes no
listener state. -/
theorem c5_listener_exact_match (st : ListenerState) (topic : String)
    (payload : Option String) :
    ((onMessage st topic payload).2 = st) ∧
    ((onMessage st topic payload).1
        = [⟨st.flag_response_topic, st.flag_response, 1, false⟩]
      ↔ topic ∈ st.command_target_topics ∧ payload = some st.trigger_command) ∧
    (¬(topic ∈ st.command_target_topics ∧ payload = some st.trigger_command) →
      (onMessage st topic payload).1 = []) := by
  cases payload with
  | none => simp [onMessage]
  | some p =>
      by_cases h : topic ∈ st.command_target_topics ∧ p = st.trigger_command
      · simp [onMessage, h, h.1, h.2]
      · have hne : (onMessage st topic (some p)).1 = [] := by
          simp [onMessage, h]
        refine ⟨by simp [onMessage, h], ?_, fun _ => hne⟩
        rw [hne]
        constructor
        · intro hbad
          exact absurd hbad (by simp)
        · rintro ⟨h1, h2⟩
          exact absurd ⟨h1, Option.some_inj.mp h2⟩ h

/-- Witness for claim C5: the GET_FLAG trigger on a subscribed topic yields
exactly the one flag publish; the lowercase payload and an unsubscribed
topic yield no publish. -/
theorem c5_witness :
    (onMessage c5St "prison/cells/door_sensor/1" (some "GET_FLAG")).1
      = [⟨"prison/system/flag_channel", "FLAG_RESP", 1, false⟩] ∧
    (onMessage c5St "prison/cells/door_sensor/1" (some "get_flag")).1 = [] ∧
    (onMessage c5St "prison/other" (some "GET_FLAG")).1 = [] :=
  ⟨(c5_listener_exact_match c5St "prison/cells/door_sensor/1"
      (some "GET_FLAG")).2.1.mpr ⟨by decide, rfl⟩,
   (c5_listener_exact_match c5St "prison/cells/door_sensor/1"
      (some "get_flag")).2.2 (by decide),
   (c5_listener_exact_match c5St "prison/other"
      (some "GET_FLAG")).2.2 (by decide)⟩

/-- Claim C6: expanding a `multiple` topic spec with prefix `p`, start `s`
and end `e` yields exactly the topics `p/s, …, p/e` in ascending order when
`s ≤ e` (in particular `dev`,1,3 gives `dev/1, dev/2, dev/3`), and yields
zero topics plus a logged warning — not an error — when `e < s`. -/
theorem c6_range_expansion (pfx : String) (s e : ℤ) :
    (s ≤ e →
      (expandMultiple pfx s e).warned = false ∧
      (expandMultiple pfx s e).topics.length = (e + 1 - s).toNat ∧
      ∀ i (hi : i < (expandMultiple pfx s e).topics.length),
        (expandMultiple pfx s e).topics[i] = pfx ++ "/" ++ toString (s + (i : ℤ))) ∧
    (e < s → (expandMultiple pfx s e).topics = [] ∧
      (expandMultiple pfx s e).warned = true) ∧
    expandMultiple "dev" 1 3 = ⟨["dev/1", "dev/2", "dev/3"], false⟩ := by
  refine ⟨fun hle => ?_, fun hlt => ?_, by rfl⟩
  · have h : ¬ e < s := not_lt.mpr hle
    refine ⟨by simp only [expandMultiple, if_neg h], ?_, ?_⟩
    · simp only [expandMultiple, if_neg h]
      rw [List.length_map, List.length_range]
    · intro i hi
      simp only [expandMultiple, if_neg h] at hi ⊢
      rw [List.getElem_map, List.getElem_range]
  · simp [expandMultiple, hlt]

/-- Witness for claim C6: the concrete expansions from the spec, obtained
through the theorem. -/
theorem c6_witness :
    expandMultiple "dev" 1 3 = ⟨["dev/1", "dev/2", "dev/3"], false⟩ ∧
    ((2:ℤ) < 5 ∧ (expandMultiple "x" 5 2).topics = []) :=
  ⟨(c6_range_expansion "dev" 1 3).2.2,
   ⟨by decide, ((c6_range_expansion "x" 5 2).2.1 (by decide)).1⟩⟩

/-- Claim C8: the retain flag passed to `publish` is true exactly when the
device-level retain default is true or some generator that is active in the
cycle wins its opportunistic retain draw; with the default false and all
retain probabilities zero, no message is ever retained (the draws of
`random.random()` are non-negative). -/
theorem c8_retain_flag (dflt : Bool) (gens : List (Generator × ℚ)) :
    (effectiveRetain dflt gens = true ↔
      dflt = true ∨ ∃ gr ∈ gens, gr.1.is_active = true ∧
        gr.2 < gr.1.retain_probability) ∧
    ((dflt = false ∧ ∀ gr ∈ gens, gr.1.retain_probability = 0 ∧ 0 ≤ gr.2) →
      effectiveRetain dflt gens = false) := by
  constructor
  · simp [effectiveRetain, shouldRetain, List.any_eq_true, Bool.and_eq_true]
  · rintro ⟨hd, hall⟩
    subst hd
    simp only [effectiveRetain, Bool.false_or]
    rw [List.any_eq_false]
    intro gr hgr
    rcases hall gr hgr with ⟨hp, hr⟩
    simp [shouldRetain, hp, not_lt.mpr hr]

/-- Witness for claim C8: a device with retain default false and one active
generator of retain probability 0 never retains. -/
theorem c8_witness :
    ((false = false ∧ ∀ gr ∈ [(c8Gen, (1:ℚ)/2)],
        gr.1.retain_probability = 0 ∧ 0 ≤ gr.2) ∧
      effectiveRetain false [(c8Gen, (1:ℚ)/2)] = false) := by
  have h : ∀ gr ∈ [(c8Gen, (1:ℚ)/2)], gr.1.retain_probability = 0 ∧ 0 ≤ gr.2 := by
    intro gr hgr
    simp only [List.mem_singleton] at hgr
    subst hgr
    exact ⟨rfl, by norm_num⟩
  exact ⟨⟨rfl, h⟩, (c8_retain_flag false [(c8Gen, (1:ℚ)/2)]).2 ⟨rfl, h⟩⟩

/-- Claim C1 counterexample: with an out-of-range `INITIAL_VALUE` and
`restart_on_boundaries`, one step that overshoots the upper bound restores
the raw (unclamped) initial value: the stored current value becomes 20 and
the returned value is 20, outside `[0, 10]`.  (The constructor had clamped
the starting value to 10; the boundary-restart path does not clamp.) -/
theorem c1_counterexample :
    currentOf c1Gen = 10 ∧
    (generateValue c1Gen ⟨0, 1, 0⟩).1 = some (PyVal.float 20) ∧
    currentOf (generateValue c1Gen ⟨0, 1, 0⟩).2 = 20 ∧
    ¬(currentOf (generateValue c1Gen ⟨0, 1, 0⟩).2 ≤ 10) := by
  have hne : ("float" : String) ≠ "int" := by simp
  refine ⟨?_, ?_, ?_, ?_⟩
  · norm_num [currentOf, c1Gen, mkTopicDataNumber, clamp]
  · simp only [c1Gen, mkTopicDataNumber, generateValue, numberGen, if_neg hne]
    norm_num [numberNext, clamp, round4, pyRound, Int.fract]
  · simp only [c1Gen, mkTopicDataNumber, generateValue, numberGen, currentOf]
    norm_num [numberNext, clamp]
  · simp only [c1Gen, mkTopicDataNumber, generateValue, numberGen, currentOf]
    norm_num [numberNext, clamp]

/-- Claim C4 counterexample: when the expression yields a non-numeric
result, `generate_value` returns `None` but the generator does NOT
transition to terminal — `is_active` stays true (only a raised evaluation
error deactivates it). -/
theorem c4_counterexample :
    (generateValue c4Gen dummyDraw).1 = none ∧
    (generateValue c4Gen dummyDraw).2.is_active = true :=
  ⟨rfl, rfl⟩

/-- Claim C4 (amended): for an active expression-walk generator, `x` is
first advanced by the drawn delta and wrapped by subtracting the interval
width on overshoot (`wrapX`); then, when evaluation at the new `x` raises
an error, `generate_value` returns `None` and the generator becomes
terminal, every subsequent call returning `None` without change; when it
yields a non-numeric result, `generate_value` returns `None` but the
generator stays active; when it yields a number, the value returned is the
number rounded to 4 decimals. -/
theorem c4_expression_walk (nm ty : String) (rp : ℚ) (ms : MathState)
    (f : ℚ → ExprRes) (d : Draw) (hf : ms.expr = some f) :
    (f (wrapX ms d.r2) = ExprRes.err →
      (generateValue ⟨nm, ty, rp, true, .mathExpr ms⟩ d).1 = none ∧
      (generateValue ⟨nm, ty, rp, true, .mathExpr ms⟩ d).2.is_active = false ∧
      mathXOf (generateValue ⟨nm, ty, rp, true, .mathExpr ms⟩ d).2 = wrapX ms d.r2 ∧
      ∀ d2 : Draw,
        generateValue (generateValue ⟨nm, ty, rp, true, .mathExpr ms⟩ d).2 d2
          = (none, (generateValue ⟨nm, ty, rp, true, .mathExpr ms⟩ d).2)) ∧
    (f (wrapX ms d.r2) = ExprRes.nonNum →
      (generateValue ⟨nm, ty, rp, true, .mathExpr ms⟩ d).1 = none ∧
      (generateValue ⟨nm, ty, rp, true, .mathExpr ms⟩ d).2.is_active = true ∧
      mathXOf (generateValue ⟨nm, ty, rp, true, .mathExpr ms⟩ d).2 = wrapX ms d.r2) ∧
    (∀ q, f (wrapX ms d.r2) = ExprRes.num q →
      (generateValue ⟨nm, ty, rp, true, .mathExpr ms⟩ d).1
        = some (PyVal.float (round4 q)) ∧
      (generateValue ⟨nm, ty, rp, true, .mathExpr ms⟩ d).2.is_active = true ∧
      mathXOf (generateValue ⟨nm, ty, rp, true, .mathExpr ms⟩ d).2 = wrapX ms d.r2) := by
  obtain ⟨ex, istart, iend, mind, maxd, x0⟩ := ms
  simp only [MathState.mk.injEq] at hf ⊢
  subst hf
  refine ⟨fun herr => ?_, fun hnn => ?_, fun q hq => ?_⟩
  · simp [generateValue, mathGen, herr, mathXOf]
  · simp [generateValue, mathGen, hnn, mathXOf]
  · simp [generateValue, mathGen, hq, mathXOf]

/-- Witness for claim C4 (amended): a numeric evaluation advances `x` by
the drawn delta and returns the rounded result, staying active. -/
theorem c4_expression_walk_witness :
    ((fun x => ExprRes.num x) (wrapX c4WitnessMs 2) = ExprRes.num (wrapX c4WitnessMs 2)) ∧
    (generateValue ⟨"m", "math_expression", 0, true, .mathExpr c4WitnessMs⟩ ⟨0, 2, 0⟩).1
      = some (PyVal.float (round4 (wrapX c4WitnessMs 2))) ∧
    (generateValue ⟨"m", "math_expression", 0, true, .mathExpr c4WitnessMs⟩ ⟨0, 2, 0⟩).2.is_active
      = true :=
  ⟨rfl,
   ((c4_expression_walk "m" "math_expression" 0 c4WitnessMs
      (fun x => ExprRes.num x) ⟨0, 2, 0⟩ rfl).2.2 (wrapX c4WitnessMs 2) rfl).1,
   ((c4_expression_walk "m" "math_expression" 0 c4WitnessMs
      (fun x => ExprRes.num x) ⟨0, 2, 0⟩ rfl).2.2 (wrapX c4WitnessMs 2) rfl).2.1⟩

/-- Claim C7 counterexample: with two threads — one finishing after 9.95
seconds and one hung — the second join is granted the floored timeout
`max(0.1, remaining) = 0.1` although only `0.05` of the 10-second budget
remains, and the method keeps waiting until 10.05 seconds, past the
budget.  It does report exactly the hung thread as still running. -/
theorem c7_counterexample :
    (simulatorStop [some (199/20), none]).joins = [(10, 10), (1/20, 1/10)] ∧
    ((1:ℚ)/20 < 1/10) ∧
    (simulatorStop [some (199/20), none]).finalClock = 201/20 ∧
    ((10:ℚ) < 201/20) ∧
    (simulatorStop [some (199/20), none]).stillRunning = [none] := by
  refine ⟨?_, by norm_num, ?_, by norm_num, ?_⟩ <;>
    norm_num [simulatorStop, stopJoinLoop, joinThread, threadAlive, List.filter]

theorem dictLookup_insert_self (d : List (String × PyVal)) (k : String)
    (v : PyVal) : dictLookup (dictInsert d k v) k = some v := by
  induction d with
  | nil => simp [dictInsert, dictLookup]
  | cons kv rest ih =>
      obtain ⟨k0, v0⟩ := kv
      by_cases h : k0 = k
      · simp [dictInsert, dictLookup, h]
      · simp [dictInsert, dictLookup, h, ih]

theorem dictLookup_insert_ne (d : List (String × PyVal)) (k1 k : String)
    (v : PyVal) (h : k1 ≠ k) :
    dictLookup (dictInsert d k1 v) k = dictLookup d k := by
  induction d with
  | nil => simp [dictInsert, dictLookup, h]
  | cons kv rest ih =>
      obtain ⟨k0, v0⟩ := kv
      by_cases h0 : k0 = k1
      · subst h0
        simp [dictInsert, dictLookup, h]
      · by_cases hk : k0 = k
        · simp [dictInsert, dictLookup, h0, hk, Ne.symm h]
        · simp [dictInsert, dictLookup, h0, hk, ih]

theorem payloadStep_lookup_ne (acc : PayloadAcc) (gd : Generator × Draw)
    (n : String) (h : gd.1.name ≠ n) :
    dictLookup (payloadStep acc gd).payload n = dictLookup acc.payload n := by
  obtain ⟨g, d⟩ := gd
  unfold payloadStep
  by_cases ha : g.is_active
  · rcases hgen : generateValue g d with ⟨ov, g1⟩
    cases ov with
    | none => simp [ha, hgen]
    | some v => simp [ha, hgen, dictLookup_insert_ne _ _ _ _ h]
  · simp [ha]

theorem payloadStep_count_le (acc : PayloadAcc) (gd : Generator × Draw) :
    acc.activeCount ≤ (payloadStep acc gd).activeCount := by
  obtain ⟨g, d⟩ := gd
  unfold payloadStep
  by_cases ha : g.is_active
  · rcases hgen : generateValue g d with ⟨ov, g1⟩
    cases ov with
    | none => simp [ha, hgen]
    | some v => simp [ha, hgen]
  · simp [ha]

theorem foldl_payloadStep_lookup (l : List (Generator × Draw))
    (acc : PayloadAcc) (n : String) (hl : ∀ p ∈ l, p.1.name ≠ n) :
    dictLookup (l.foldl payloadStep acc).payload n = dictLookup acc.payload n := by
  induction l generalizing acc with
  | nil => rfl
  | cons p rest ih =>
      rw [List.foldl_cons,
        ih (payloadStep acc p) (fun q hq => hl q (List.mem_cons_of_mem p hq)),
        payloadStep_lookup_ne acc p n (hl p (List.mem_cons_self p rest))]

theorem foldl_payloadStep_count (l : List (Generator × Draw))
    (acc : PayloadAcc) :
    acc.activeCount ≤ (l.foldl payloadStep acc).activeCount := by
  induction l generalizing acc with
  | nil => exact le_rfl
  | cons p rest ih =>
      exact le_trans (payloadStep_count_le acc p) (ih (payloadStep acc p))

/-- Claim C9: in `_generate_payload` the static root is inserted first and
each active generator's non-`None` value is then stored under the
generator's name, so a generator named like a static key overwrites the
static value: if the active generator `g` (with no generator of the same
name after it) yields `v`, the published payload maps `g`'s name to `v`,
regardless of the static fragment's entry `w` for the same key. -/
theorem c9_generator_overrides_root (root : List (String × PyVal))
    (l1 l2 : List (Generator × Draw)) (g : Generator) (d : Draw)
    (n : String) (v w : PyVal) (hname : g.name = n)
    (hact : g.is_active = true) (hval : (generateValue g d).1 = some v)
    (hroot : dictLookup root n = some w)
    (hl2 : ∀ p ∈ l2, p.1.name ≠ n) :
    (generatePayload (l1 ++ (g, d) :: l2) root).1 ≠ none ∧
    dictLookup ((generatePayload (l1 ++ (g, d) :: l2) root).1.getD []) n
      = some v := by
  rcases hgen : generateValue g d with ⟨ov, g1⟩
  have hov : ov = some v := by rw [hgen] at hval; exact hval
  subst hov
  have hstep : ∀ acc : PayloadAcc,
      payloadStep acc (g, d)
        = ⟨dictInsert acc.payload n v, acc.activeCount + 1, acc.gens ++ [g1]⟩ := by
    intro acc
    unfold payloadStep
    simp [hact, hgen, hname]
  set acc1 := l1.foldl payloadStep (⟨root, 0, []⟩ : PayloadAcc) with hacc1
  have hfold : (l1 ++ (g, d) :: l2).foldl payloadStep (⟨root, 0, []⟩ : PayloadAcc)
      = l2.foldl payloadStep (payloadStep acc1 (g, d)) := by
    rw [List.foldl_append, List.foldl_cons]
  have hcount : 1 ≤ ((l1 ++ (g, d) :: l2).foldl payloadStep
      (⟨root, 0, []⟩ : PayloadAcc)).activeCount := by
    rw [hfold]
    refine le_trans ?_ (foldl_payloadStep_count l2 _)
    rw [hstep acc1]
    exact Nat.le_add_left 1 acc1.activeCount
  have hlook : dictLookup ((l1 ++ (g, d) :: l2).foldl payloadStep
      (⟨root, 0, []⟩ : PayloadAcc)).payload n = some v := by
    rw [hfold, foldl_payloadStep_lookup l2 _ n hl2, hstep acc1]
    exact dictLookup_insert_self acc1.payload n v
  have hcond : (((l1 ++ (g, d) :: l2).foldl payloadStep
      (⟨root, 0, []⟩ : PayloadAcc)).activeCount == 0) = false := by
    simp only [beq_eq_false_iff_ne, ne_eq]
    omega
  simp only [generatePayload]
  rw [hcond]
  refine ⟨by simp, ?_⟩
  simpa using hlook

/-- Witness for claim C9: the static root maps `t` to 7, the generator
named `t` yields 9, and the published payload maps `t` to 9. -/
theorem c9_witness :
    (generatePayload [(c9Gen, dummyDraw)] [("t", PyVal.int 7)]).1 ≠ none ∧
    dictLookup ((generatePayload [(c9Gen, dummyDraw)] [("t", PyVal.int 7)]).1.getD []) "t"
      = some (PyVal.int 9) :=
  c9_generator_overrides_root [("t", PyVal.int 7)] [] [] c9Gen dummyDraw "t"
    (PyVal.int 9) (PyVal.int 7) rfl rfl rfl rfl
    (fun p hp => absurd hp (List.not_mem_nil p))

theorem joinThread_le_add (c : ℚ) (f : Option ℚ) (t : ℚ) (h : 0 ≤ t) :
    joinThread c f t ≤ c + t := by
  cases f with
  | none => exact le_rfl
  | some t0 =>
      simp only [joinThread]
      split_ifs with h1 h2
      · linarith
      · exact h2
      · exact le_rfl

theorem stopJoinLoop_invariant (fs : List (Option ℚ)) :
    ∀ c : ℚ, c < 10 + 1/10 →
      (stopJoinLoop fs c).1 < 10 + 1/10 ∧
      ∀ j ∈ (stopJoinLoop fs c).2, 0 < j.1 ∧ j.2 = max (1/10) j.1 := by
  induction fs with
  | nil =>
      intro c hc
      exact ⟨hc, by simp [stopJoinLoop]⟩
  | cons f rest ih =>
      intro c hc
      by_cases hr : 10 - c ≤ 0
      · constructor
        · simpa [stopJoinLoop, hr] using hc
        · simp [stopJoinLoop, hr]
      · push_neg at hr
        have hcc : c < 10 := by linarith
        have hj : joinThread c f (max (1/10) (10 - c)) < 10 + 1/10 := by
          rcases le_or_lt (1/10) (10 - c) with hcase | hcase
          · rw [max_eq_right hcase]
            have hle := joinThread_le_add c f (10 - c) (by linarith)
            linarith
          · rw [max_eq_left (le_of_lt hcase)]
            have hle := joinThread_le_add c f (1/10) (by norm_num)
            linarith
        obtain ⟨h1, h2⟩ := ih (joinThread c f (max (1/10) (10 - c))) hj
        have hnr : ¬(10 - c ≤ 0) := not_le.mpr hr
        refine ⟨?_, ?_⟩
        · simpa [stopJoinLoop, hnr] using h1
        · simp only [stopJoinLoop, if_neg hnr, List.mem_cons]
          rintro j (rfl | hj2)
          · exact ⟨hr, rfl⟩
          · exact h2 j hj2

/-- Claim C7 (amended): `Simulator.stop` signals every live thread and then
joins against the shared 10-second budget, but each individual join is
granted `max(0.1, remaining)` seconds — a join issued with less than 0.1 s
of budget left is allowed to exceed the remaining budget, so the whole wait
can overrun the budget by strictly less than 0.1 s.  The loop performs
joins only while budget remains (each recorded join sees a positive
remaining budget), always returns in under 10.1 s of waiting, abandons
threads that exceed their allotted timeout, and reports as possibly still
running exactly the threads still alive when it returns. -/
theorem c7_stop_budget (threads : List (Option ℚ)) :
    (simulatorStop threads).finalClock < 10 + 1/10 ∧
    (∀ j ∈ (simulatorStop threads).joins, 0 < j.1 ∧ j.2 = max (1/10) j.1) ∧
    (simulatorStop threads).stillRunning
      = threads.filter (fun f => threadAlive f (simulatorStop threads).finalClock) := by
  obtain ⟨h1, h2⟩ :=
    stopJoinLoop_invariant (threads.filter (fun f => threadAlive f 0)) 0
      (by norm_num)
  exact ⟨h1, h2, rfl⟩

theorem mkRaw_eq_rawAt (n : String) (rp : ℚ) (vs : List PyVal)
    (restart : Bool) (dflt : Option PyVal) (h : vs ≠ []) :
    mkTopicDataRawValue n rp vs restart dflt
      = rawAt n rp vs restart dflt 0 true := by
  cases vs with
  | nil => exact absurd rfl h
  | cons a t => rfl

theorem rawStep_emit (n : String) (rp : ℚ) (vs : List PyVal)
    (restart : Bool) (dflt : Option PyVal) (i : ℕ) (h : i < vs.length) :
    genStep (rawAt n rp vs restart dflt i true)
      = (some (mergeDefault dflt (vs.getD i (PyVal.int 0))),
         rawAt n rp vs restart dflt (i + 1) true) := by
  have hne : vs.isEmpty = false := by
    cases vs with
    | nil => simp at h
    | cons a t => rfl
  simp [genStep, generateValue, rawGen, rawEmit, rawAt, hne, not_le.mpr h]

theorem rawStep_end (n : String) (rp : ℚ) (vs : List PyVal)
    (dflt : Option PyVal) (h : vs ≠ []) :
    genStep (rawAt n rp vs false dflt vs.length true)
      = (none, rawAt n rp vs false dflt vs.length false) := by
  have hne : vs.isEmpty = false := by
    cases vs with
    | nil => exact absurd rfl h
    | cons a t => rfl
  simp [genStep, generateValue, rawGen, rawAt, hne]

theorem rawStep_wrap (n : String) (rp : ℚ) (vs : List PyVal)
    (dflt : Option PyVal) (h : vs ≠ []) :
    genStep (rawAt n rp vs true dflt vs.length true)
      = (some (mergeDefault dflt (vs.getD 0 (PyVal.int 0))),
         rawAt n rp vs true dflt 1 true) := by
  have hne : vs.isEmpty = false := by
    cases vs with
    | nil => exact absurd rfl h
    | cons a t => rfl
  simp [genStep, generateValue, rawGen, rawEmit, rawAt, hne]

theorem rawStep_inactive (n : String) (rp : ℚ) (vs : List PyVal)
    (restart : Bool) (dflt : Option PyVal) (i : ℕ) :
    genStep (rawAt n rp vs restart dflt i false)
      = (none, rawAt n rp vs restart dflt i false) := by
  simp [genStep, generateValue, rawGen, rawAt]

theorem rawIter_false (n : String) (rp : ℚ) (vs : List PyVal)
    (dflt : Option PyVal) (h : vs ≠ []) (m : ℕ) :
    genIter (mkTopicDataRawValue n rp vs false dflt) m
      = rawAt n rp vs false dflt (min m vs.length)
          (decide (m ≤ vs.length)) := by
  induction m with
  | zero =>
      rw [genIter, mkRaw_eq_rawAt n rp vs false dflt h]
      simp [Nat.zero_min]
  | succ m ih =>
      have hstep : genIter (mkTopicDataRawValue n rp vs false dflt) (m + 1)
          = (genStep (genIter (mkTopicDataRawValue n rp vs false dflt) m)).2 := rfl
      rw [hstep, ih]
      rcases Nat.lt_trichotomy m vs.length with hm | hm | hm
      · have h1 : decide (m ≤ vs.length) = true := decide_eq_true (le_of_lt hm)
        have h2 : decide (m + 1 ≤ vs.length) = true := decide_eq_true hm
        rw [h1, min_eq_left (le_of_lt hm), rawStep_emit n rp vs false dflt m hm,
          min_eq_left hm, h2]
      · subst hm
        have h1 : decide (vs.length ≤ vs.length) = true := decide_eq_true le_rfl
        have h2 : decide (vs.length + 1 ≤ vs.length) = false :=
          decide_eq_false (by omega)
        rw [min_self, h1, rawStep_end n rp vs dflt h, h2,
          min_eq_right (Nat.le_succ vs.length)]
      · have h1 : decide (m ≤ vs.length) = false :=
          decide_eq_false (by omega)
        have h2 : decide (m + 1 ≤ vs.length) = false :=
          decide_eq_false (by omega)
        rw [min_eq_right (le_of_lt hm), h1,
          rawStep_inactive n rp vs false dflt vs.length, h2,
          min_eq_right (by omega)]

theorem rawIter_true_le (n : String) (rp : ℚ) (vs : List PyVal)
    (dflt : Option PyVal) (h : vs ≠ []) (j : ℕ) (hj : j ≤ vs.length) :
    genIter (mkTopicDataRawValue n rp vs true dflt) j
      = rawAt n rp vs true dflt j true := by
  induction j with
  | zero => rw [genIter, mkRaw_eq_rawAt n rp vs true dflt h]
  | succ j ih =>
      have hstep : genIter (mkTopicDataRawValue n rp vs true dflt) (j + 1)
          = (genStep (genIter (mkTopicDataRawValue n rp vs true dflt) j)).2 := rfl
      rw [hstep, ih (by omega), rawStep_emit n rp vs true dflt j (by omega)]

theorem rawIter_shift (n : String) (rp : ℚ) (vs : List PyVal)
    (dflt : Option PyVal) (h : vs ≠ []) (m : ℕ) (hm : 1 ≤ m) :
    genIter (mkTopicDataRawValue n rp vs true dflt) (vs.length + m)
      = genIter (mkTopicDataRawValue n rp vs true dflt) m := by
  induction m with
  | zero => omega
  | succ m ih =>
      rcases Nat.eq_zero_or_pos m with hm0 | hm0
      · subst hm0
        have hlen : 0 < vs.length := List.length_pos.mpr h
        have e1 : genIter (mkTopicDataRawValue n rp vs true dflt) (vs.length + 1)
            = (genStep (genIter (mkTopicDataRawValue n rp vs true dflt) vs.length)).2 := rfl
        have e2 : genIter (mkTopicDataRawValue n rp vs true dflt) 1
            = (genStep (genIter (mkTopicDataRawValue n rp vs true dflt) 0)).2 := rfl
        rw [e1, e2, rawIter_true_le n rp vs dflt h vs.length le_rfl]
        rw [show genIter (mkTopicDataRawValue n rp vs true dflt) 0
            = mkTopicDataRawValue n rp vs true dflt from rfl]
        rw [mkRaw_eq_rawAt n rp vs true dflt h, rawStep_wrap n rp vs dflt h,
          rawStep_emit n rp vs true dflt 0 hlen]
      · have e1 : genIter (mkTopicDataRawValue n rp vs true dflt) (vs.length + (m + 1))
            = (genStep (genIter (mkTopicDataRawValue n rp vs true dflt) (vs.length + m))).2 := rfl
        have e2 : genIter (mkTopicDataRawValue n rp vs true dflt) (m + 1)
            = (genStep (genIter (mkTopicDataRawValue n rp vs true dflt) m)).2 := rfl
        rw [e1, e2, ih hm0]

theorem genOut_shift (n : String) (rp : ℚ) (vs : List PyVal)
    (dflt : Option PyVal) (h : vs ≠ []) (m : ℕ) (hm : 1 ≤ m) :
    genOut (mkTopicDataRawValue n rp vs true dflt) (vs.length + m)
      = genOut (mkTopicDataRawValue n rp vs true dflt) m := by
  unfold genOut
  rw [rawIter_shift n rp vs dflt h m hm]

/-- Claim C3: a `TopicDataRawValue` with `N ≥ 1` literals (no value
default configured): with restart disabled the first `N` calls return the
literals in order and every later call returns `None` with the generator
permanently inactive; with restart enabled the values cycle with period
`N`: the value returned after `k·N` prior calls equals the first value. -/
theorem c3_playlist (n : String) (rp : ℚ) (vs : List PyVal)
    (h : 1 ≤ vs.length) :
    (∀ i (hi : i < vs.length),
      genOut (mkTopicDataRawValue n rp vs false none) i
        = some (vs.get ⟨i, hi⟩)) ∧
    (∀ i, vs.length ≤ i →
      genOut (mkTopicDataRawValue n rp vs false none) i = none ∧
      (genIter (mkTopicDataRawValue n rp vs false none) (i + 1)).is_active
        = false) ∧
    (∀ k, genOut (mkTopicDataRawValue n rp vs true none) (k * vs.length)
      = genOut (mkTopicDataRawValue n rp vs true none) 0) := by
  have hne : vs ≠ [] := by
    intro hv
    rw [hv] at h
    simp at h
  refine ⟨?_, ?_, ?_⟩
  · intro i hi
    unfold genOut
    rw [rawIter_false n rp vs none hne i, min_eq_left (le_of_lt hi),
      decide_eq_true (le_of_lt hi), rawStep_emit n rp vs false none i hi]
    simp only [mergeDefault, List.getD_eq_getElem vs _ hi, List.get_eq_getElem]
  · intro i hi
    constructor
    · unfold genOut
      rw [rawIter_false n rp vs none hne i, min_eq_right hi]
      rcases Nat.eq_or_lt_of_le hi with hieq | hilt
      · subst hieq
        rw [decide_eq_true le_rfl, rawStep_end n rp vs none hne]
      · rw [decide_eq_false (by omega), rawStep_inactive]
    · rw [rawIter_false n rp vs none hne (i + 1), min_eq_right (by omega),
        decide_eq_false (by omega)]
      rfl
  · intro k
    induction k with
    | zero => rw [Nat.zero_mul]
    | succ k ih =>
        rcases Nat.eq_zero_or_pos k with hk | hk
        · subst hk
          have h1 : (0 + 1) * vs.length = vs.length := by ring
          rw [h1]
          unfold genOut
          rw [rawIter_true_le n rp vs none hne vs.length le_rfl,
            show genIter (mkTopicDataRawValue n rp vs true none) 0
              = mkTopicDataRawValue n rp vs true none from rfl,
            mkRaw_eq_rawAt n rp vs true none hne,
            rawStep_wrap n rp vs none hne,
            rawStep_emit n rp vs true none 0 (List.length_pos.mpr hne)]
        · have hmul : (k + 1) * vs.length = vs.length + k * vs.length := by ring
          have hlen : 0 < vs.length := List.length_pos.mpr hne
          have hpos : 1 ≤ k * vs.length :=
            Nat.one_le_iff_ne_zero.mpr (Nat.mul_ne_zero (by omega) (by omega))
          rw [hmul, genOut_shift n rp vs none hne (k * vs.length) hpos, ih]

/-- Witness for claim C3: a two-element playlist emits its literals in
order, is terminal from the third call on, and cycles with period 2 when
restart is enabled. -/
theorem c3_playlist_witness :
    genOut (mkTopicDataRawValue "a" 0 [PyVal.int 5, PyVal.int 6] false none) 0
      = some (PyVal.int 5) ∧
    genOut (mkTopicDataRawValue "a" 0 [PyVal.int 5, PyVal.int 6] false none) 2
      = none ∧
    genOut (mkTopicDataRawValue "a" 0 [PyVal.int 5, PyVal.int 6] true none) 4
      = genOut (mkTopicDataRawValue "a" 0 [PyVal.int 5, PyVal.int 6] true none) 0 :=
  ⟨(c3_playlist "a" 0 [PyVal.int 5, PyVal.int 6] (by decide)).1 0 (by decide),
   ((c3_playlist "a" 0 [PyVal.int 5, PyVal.int 6] (by decide)).2.1 2 (by decide)).1,
   (c3_playlist "a" 0 [PyVal.int 5, PyVal.int 6] (by decide)).2.2 2⟩

theorem pyRound_bounds (q : ℚ) : ⌊q⌋ ≤ pyRound q ∧ pyRound q ≤ ⌊q⌋ + 1 := by
  unfold pyRound
  split_ifs <;> omega

theorem pyRound_mono {x y : ℚ} (h : x ≤ y) : pyRound x ≤ pyRound y := by
  have hf : ⌊x⌋ ≤ ⌊y⌋ := Int.floor_mono h
  rcases eq_or_lt_of_le hf with heq | hlt
  · unfold pyRound
    rw [← heq]
    have hfr : x - ⌊x⌋ ≤ y - ⌊x⌋ := by linarith
    split_ifs <;> first | omega | (exfalso; linarith)
  · have h1 := (pyRound_bounds x).2
    have h2 := (pyRound_bounds y).1
    omega

theorem round4_mono {x y : ℚ} (h : x ≤ y) : round4 x ≤ round4 y := by
  unfold round4
  have h1 : x * 10000 ≤ y * 10000 := by linarith
  have h2 : (pyRound (x * 10000) : ℚ) ≤ (pyRound (y * 10000) : ℚ) :=
    Int.cast_le.mpr (pyRound_mono h1)
  exact (div_le_div_iff_of_pos_right (by norm_num)).mpr h2

theorem clamp_mem (lo hi x : ℚ) (h : lo ≤ hi) :
    lo ≤ clamp lo hi x ∧ clamp lo hi x ≤ hi :=
  ⟨le_max_left _ _, max_le h (min_le_left _ _)⟩

theorem numberNext_mem (ns : NumberState) (d : Draw)
    (hmm : ns.min_value ≤ ns.max_value)
    (hiv : ∀ iv, ns.initial_value = some iv →
      ns.min_value ≤ iv ∧ iv ≤ ns.max_value)
    (hcur : ns.min_value ≤ ns.current_value ∧
      ns.current_value ≤ ns.max_value)
    (hd : 0 ≤ d.r2) :
    ns.min_value ≤ numberNext ns d ∧ numberNext ns d ≤ ns.max_value := by
  unfold numberNext
  by_cases h1 : ns.initial_value.isSome ∧ d.r1 < ns.reset_probability
  · rw [if_pos h1]
    exact clamp_mem _ _ _ hmm
  · rw [if_neg h1]
    by_cases h2 : d.r3 < ns.increase_probability
    · rw [if_pos h2]
      by_cases h3 : ns.max_value < ns.current_value + d.r2
      · rw [if_pos h3]
        rcases hin : ns.initial_value with _ | iv
        · cases hrb : ns.restart_on_boundaries <;> exact ⟨hmm, le_rfl⟩
        · cases hrb : ns.restart_on_boundaries
          · exact ⟨hmm, le_rfl⟩
          · exact hiv iv hin
      · rw [if_neg h3]
        push_neg at h3
        exact ⟨by linarith [hcur.1], h3⟩
    · rw [if_neg h2]
      by_cases h3 : ns.current_value - d.r2 < ns.min_value
      · rw [if_pos h3]
        rcases hin : ns.initial_value with _ | iv
        · cases hrb : ns.restart_on_boundaries <;> exact ⟨le_rfl, hmm⟩
        · cases hrb : ns.restart_on_boundaries
          · exact ⟨le_rfl, hmm⟩
          · exact hiv iv hin
      · rw [if_neg h3]
        push_neg at h3
        exact ⟨h3, by linarith [hcur.2]⟩

theorem numberOut_bounds (ty : String) (minv maxv c : ℚ)
    (hc : minv ≤ c ∧ c ≤ maxv)
    (hint : ty = "int" →
      (pyRound minv : ℚ) = minv ∧ (pyRound maxv : ℚ) = maxv)
    (hflt : ty ≠ "int" → round4 minv = minv ∧ round4 maxv = maxv) :
    ∃ q, valNum (if ty = "int" then PyVal.int (pyRound c)
        else PyVal.float (round4 c)) = some q ∧ minv ≤ q ∧ q ≤ maxv := by
  by_cases h : ty = "int"
  · rw [if_pos h]
    obtain ⟨h1, h2⟩ := hint h
    refine ⟨(pyRound c : ℚ), rfl, ?_, ?_⟩
    · rw [← h1]
      exact_mod_cast pyRound_mono hc.1
    · rw [← h2]
      exact_mod_cast pyRound_mono hc.2
  · rw [if_neg h]
    obtain ⟨h1, h2⟩ := hflt h
    refine ⟨round4 c, rfl, ?_, ?_⟩
    · rw [← h1]
      exact round4_mono hc.1
    · rw [← h2]
      exact round4_mono hc.2

theorem numberRun_inv (nm ty : String) (rp : ℚ) (act : Bool)
    (ds : List Draw) :
    ∀ ns : NumberState,
      ns.min_value ≤ ns.max_value →
      (∀ iv, ns.initial_value = some iv →
        ns.min_value ≤ iv ∧ iv ≤ ns.max_value) →
      (ns.min_value ≤ ns.current_value ∧ ns.current_value ≤ ns.max_value) →
      (ty = "int" →
        (pyRound ns.min_value : ℚ) = ns.min_value ∧
        (pyRound ns.max_value : ℚ) = ns.max_value) →
      (ty ≠ "int" →
        round4 ns.min_value = ns.min_value ∧
        round4 ns.max_value = ns.max_value) →
      (∀ d ∈ ds, 0 ≤ d.r2) →
      (∀ ov ∈ (genRun (⟨nm, ty, rp, act, .number ns⟩ : Generator) ds).1,
        ∃ q, ov.bind valNum = some q ∧
          ns.min_value ≤ q ∧ q ≤ ns.max_value) ∧
      ∃ ns1, (genRun (⟨nm, ty, rp, act, .number ns⟩ : Generator) ds).2
          = ⟨nm, ty, rp, act, .number ns1⟩ ∧
        ns1.min_value = ns.min_value ∧ ns1.max_value = ns.max_value ∧
        ns.min_value ≤ ns1.current_value ∧
        ns1.current_value ≤ ns.max_value := by
  induction ds with
  | nil =>
      intro ns hmm hiv hcur hint hflt hds
      exact ⟨fun ov hov => absurd hov (List.not_mem_nil ov),
        ns, rfl, rfl, rfl, hcur.1, hcur.2⟩
  | cons d ds ih =>
      intro ns hmm hiv hcur hint hflt hds
      have hd : 0 ≤ d.r2 := hds d (List.mem_cons_self d ds)
      have hmem := numberNext_mem ns d hmm hiv hcur hd
      have hrun : genRun (⟨nm, ty, rp, act, .number ns⟩ : Generator) (d :: ds)
          = ((if ty = "int" then some (PyVal.int (pyRound (numberNext ns d)))
              else some (PyVal.float (round4 (numberNext ns d)))) ::
              (genRun (⟨nm, ty, rp, act,
                .number { ns with current_value := numberNext ns d }⟩ : Generator) ds).1,
             (genRun (⟨nm, ty, rp, act,
                .number { ns with current_value := numberNext ns d }⟩ : Generator) ds).2) := by
        simp only [genRun, generateValue, numberGen]
        by_cases h : ty = "int" <;> simp [h]
      obtain ⟨ihout, ns1, ihstate, ihmin, ihmax, ihlo, ihhi⟩ :=
        ih { ns with current_value := numberNext ns d } hmm hiv
          ⟨hmem.1, hmem.2⟩ hint hflt
          (fun d2 hd2 => hds d2 (List.mem_cons_of_mem d hd2))
      constructor
      · intro ov hov
        rw [hrun] at hov
        rcases List.mem_cons.mp hov with hov | hov
        · subst hov
          have := numberOut_bounds ty ns.min_value ns.max_value
            (numberNext ns d) ⟨hmem.1, hmem.2⟩ hint hflt
          obtain ⟨q, hq1, hq2, hq3⟩ := this
          refine ⟨q, ?_, hq2, hq3⟩
          by_cases h : ty = "int"
          · rw [if_pos h]
            rw [if_pos h] at hq1
            exact hq1
          · rw [if_neg h]
            rw [if_neg h] at hq1
            exact hq1
        · exact ihout ov hov
      · refine ⟨ns1, ?_, ihmin, ihmax, ihlo, ihhi⟩
        rw [hrun]
        exact ihstate

/-- Claim C1 (amended): for a numeric-walk generator whose configuration
satisfies `MIN_VALUE ≤ MAX_VALUE`, whose `INITIAL_VALUE` (when present)
lies within `[MIN_VALUE, MAX_VALUE]`, whose bounds are exactly
representable in the output type (integral bounds for `int` output,
4-decimal bounds otherwise), and whose step draws are non-negative (as
`random.uniform(0, max_step)` produces), every value returned by any
sequence of `generate_value` calls lies within `[min, max]` and the stored
current value is within `[min, max]` after every call.  (Without the
initial-value restriction the claim is false: see the counterexample.) -/
theorem c1_range_amended (n ty : String) (rp minv maxv : ℚ)
    (initial : Option ℚ) (max_step increase_prob reset_prob : ℚ)
    (restart : Bool) (ds : List Draw)
    (hmm : minv ≤ maxv)
    (hiv : ∀ iv, initial = some iv → minv ≤ iv ∧ iv ≤ maxv)
    (hint : ty = "int" → (pyRound minv : ℚ) = minv ∧ (pyRound maxv : ℚ) = maxv)
    (hflt : ty ≠ "int" → round4 minv = minv ∧ round4 maxv = maxv)
    (hds : ∀ d ∈ ds, 0 ≤ d.r2) :
    (∀ ov ∈ (genRun (mkTopicDataNumber n ty rp minv maxv initial max_step
        increase_prob reset_prob restart) ds).1,
      ∃ q, ov.bind valNum = some q ∧ minv ≤ q ∧ q ≤ maxv) ∧
    minv ≤ currentOf (genRun (mkTopicDataNumber n ty rp minv maxv initial
        max_step increase_prob reset_prob restart) ds).2 ∧
    currentOf (genRun (mkTopicDataNumber n ty rp minv maxv initial max_step
        increase_prob reset_prob restart) ds).2 ≤ maxv := by
  have hstart := clamp_mem minv maxv (initial.getD minv) hmm
  obtain ⟨hout, ns1, hstate, hmin, hmax, hlo, hhi⟩ :=
    numberRun_inv n ty rp true ds
      ⟨minv, maxv, clamp minv maxv (initial.getD minv), max_step,
        increase_prob, reset_prob, restart, initial⟩
      hmm hiv ⟨hstart.1, hstart.2⟩ hint hflt hds
  refine ⟨hout, ?_, ?_⟩
  · rw [show mkTopicDataNumber n ty rp minv maxv initial max_step
        increase_prob reset_prob restart
        = (⟨n, ty, rp, true, .number ⟨minv, maxv,
            clamp minv maxv (initial.getD minv), max_step, increase_prob,
            reset_prob, restart, initial⟩⟩ : Generator) from rfl, hstate]
    simpa [currentOf] using hlo
  · rw [show mkTopicDataNumber n ty rp minv maxv initial max_step
        increase_prob reset_prob restart
        = (⟨n, ty, rp, true, .number ⟨minv, maxv,
            clamp minv maxv (initial.getD minv), max_step, increase_prob,
            reset_prob, restart, initial⟩⟩ : Generator) from rfl, hstate]
    simpa [currentOf] using hhi

/-- Witness for claim C1 (amended): a float walk on `[0, 10]` with no
initial value; one upward step of 1 from the start yields 1, inside the
bounds. -/
theorem c1_range_witness :
    ((0:ℚ) ≤ 10) ∧
    (∀ ov ∈ (genRun (mkTopicDataNumber "t" "float" 0 0 10 none 5 (1/2) 0
        false) [⟨0, 1, 0⟩]).1,
      ∃ q, ov.bind valNum = some q ∧ 0 ≤ q ∧ q ≤ 10) ∧
    (0:ℚ) ≤ currentOf (genRun (mkTopicDataNumber "t" "float" 0 0 10 none 5
        (1/2) 0 false) [⟨0, 1, 0⟩]).2 :=
  ⟨by norm_num,
   (c1_range_amended "t" "float" 0 0 10 none 5 (1/2) 0 false [⟨0, 1, 0⟩]
      (by norm_num) (fun iv h => by simp at h)
      (fun h => absurd h (by simp))
      (fun _ => ⟨by norm_num [round4, pyRound], by norm_num [round4, pyRound]⟩)
      (fun d hd => by simp at hd; simp [hd])).1,
   (c1_range_amended "t" "float" 0 0 10 none 5 (1/2) 0 false [⟨0, 1, 0⟩]
      (by norm_num) (fun iv h => by simp at h)
      (fun h => absurd h (by simp))
      (fun _ => ⟨by norm_num [round4, pyRound], by norm_num [round4, pyRound]⟩)
      (fun d hd => by simp at hd; simp [hd])).2.1⟩

end IotSim
